import Mathlib

/-!
# Verification of the fus-device-update-azure step handler

Shallow embedding of the FSUpdate step handler
(`src/extensions/step_handlers/fsupdate_handler/src/fsupdate_handler.cpp`)
and of the legacy `fus/application:1` content handler
(`src/content_handlers/fsupdate_application_handler/src/fsupdate_application_handler.cpp`).

The handlers are sequential C++ functions whose only effects are
  * launching the setuid adu-shell wrapper (a child process whose exit
    code is the sole result channel, plus captured stdout for version
    queries),
  * busy-waiting on sentinel files in the work directory,
  * writing stamp files (`update_version`, …, `errorState`) and removing
    the `installUpdate` sentinel,
  * requesting an immediate reboot from the host agent.
We embed each lifecycle operation as a pure function from an environment
(the responses every external interaction would give) to the returned
`ADUC_Result` together with a trace of the effects, in program order.

Exit codes of the updater are compared by the C++ code against named
constants of the updater enums (`UPDATER_UPDATE_REBOOT_STATE`,
`UPDATER_COMMIT_STATE`, …) supplied by the external `fs_updater_error.h`.
Within each decision chain of the code these constants are pairwise
distinct integers (the `switch` in `Apply` would otherwise not compile),
so we model an exit code by the constant it is equal to, with `other`
for a code equal to none of them.  Version-query exit codes are compared
only against the integer 0 and are kept as plain integers.
-/

namespace FSUpdate

/-- `update_type_t` of `fsupdate_handler.hpp`. -/
inductive UpdateType where
  | firmware
  | application
  | commonFirmware
  | commonApplication
  | commonBoth
  | unknown
  deriving DecidableEq, Repr

/-- Exit codes of the updater child process, identified by the named
enum constant of `fs_updater_error.h` they equal (`other` = none of the
constants consulted by the handler). -/
inductive ExitCode where
  /-- `UPDATER_FIRMWARE_STATE::UPDATE_SUCCESSFUL` -/
  | fwUpdateSuccessful
  /-- `UPDATER_APPLICATION_STATE::UPDATE_SUCCESSFUL` -/
  | appUpdateSuccessful
  /-- `UPDATER_FIRMWARE_AND_APPLICATION_STATE::UPDATE_SUCCESSFUL` -/
  | bothUpdateSuccessful
  /-- `UPDATER_UPDATE_REBOOT_STATE::UPDATE_REBOOT_PENDING` -/
  | updateRebootPending
  /-- `UPDATER_UPDATE_REBOOT_STATE::NO_UPDATE_REBOOT_PENDING` -/
  | noUpdateRebootPending
  /-- `UPDATER_UPDATE_REBOOT_STATE::INCOMPLETE_FW_UPDATE` -/
  | incompleteFwUpdate
  /-- `UPDATER_UPDATE_REBOOT_STATE::INCOMPLETE_APP_UPDATE` -/
  | incompleteAppUpdate
  /-- `UPDATER_UPDATE_REBOOT_STATE::INCOMPLETE_APP_FW_UPDATE` -/
  | incompleteAppFwUpdate
  /-- `UPDATER_UPDATE_REBOOT_STATE::FAILED_APP_UPDATE` -/
  | failedAppUpdate
  /-- `UPDATER_UPDATE_REBOOT_STATE::FAILED_FW_UPDATE` -/
  | failedFwUpdate
  /-- `UPDATER_UPDATE_REBOOT_STATE::FW_UPDATE_REBOOT_FAILED` -/
  | fwUpdateRebootFailed
  /-- `UPDATER_UPDATE_REBOOT_STATE::ROLLBACK_FW_REBOOT_PENDING` -/
  | rollbackFwRebootPending
  /-- `UPDATER_UPDATE_REBOOT_STATE::ROLLBACK_APP_REBOOT_PENDING` -/
  | rollbackAppRebootPending
  /-- `UPDATER_COMMIT_STATE::SUCCESSFUL` -/
  | commitSuccessful
  /-- `UPDATER_COMMIT_STATE::UPDATE_NOT_NEEDED` -/
  | commitUpdateNotNeeded
  /-- `UPDATER_COMMIT_STATE::UPDATE_COMMIT_SUCCESSFUL` -/
  | updateCommitSuccessful
  /-- `UPDATER_UPDATE_ROLLBACK_STATE::UPDATE_ROLLBACK_SUCCESSFUL` -/
  | updateRollbackSuccessful
  /-- an exit code equal to none of the constants above -/
  | other (n : Int)
  deriving DecidableEq, Repr

/-- The `ADUC_Result_*` result codes used by the two handlers
(distinct named constants of the ADU agent's `aduc/result.h`). -/
inductive ResultCode where
  | failure
  | failureCancelled
  | installSuccess
  | applySuccess
  | applyRequiredImmediateReboot
  | cancelSuccess
  | cancelRequiredImmediateReboot
  | isInstalledInstalled
  | isInstalledNotInstalled
  | isInstalledMissingCommit
  | backupSuccess
  | restoreSuccessUnsupported
  deriving DecidableEq, Repr

/-- The `ADUC_ERC_FSUPDATE_HANDLER_*` extended result codes used by the
two handlers (distinct named constants of `fsupdate_result.h`). -/
inductive Erc where
  | downloadFailureWrongFilecount
  | downloadBadFileEntity
  | downloadFailureCreateFailedUpdateVersion
  | downloadFailureCreateFailedUpdateType
  | downloadFailureCreateFailedUpdateSize
  | downloadFailureCreateFailedUpdateLocation
  | installFailureCannotOpenWorkfolder
  | installFailureBadFileEntity
  | installFailureFirmwareUpdate
  | installFailureApplicationUpdate
  | installFailureCommitUpdate
  | missingUpdateTypeProperty
  | applyFailureUnknownError
  | cancelRollbackFirmwareError
  | cancelNotAllowedStateError
  | isInstalledFailureUnknownState
  | isInstalledFailureCommitPreviousFailedUpdate
  deriving DecidableEq, Repr

/-- The value carried in `ADUC_Result.ExtendedResultCode`: either 0 (an
aggregate-initialised member), a named `ADUC_ERC_FSUPDATE_*` constant, a
raw child exit code, the raw exit code of a version query, or
`UPDATER_FIRMWARE_AND_APPLICATION_STATE::UPDATE_INTERNAL_ERROR`. -/
inductive ExtCode where
  | zero
  | erc (e : Erc)
  | exit (c : ExitCode)
  | exitInt (n : Int)
  | internalError
  deriving DecidableEq, Repr

/-- `ADUC_Result`: a result code paired with an extended result code. -/
structure ADUCResult where
  resultCode : ResultCode
  extendedResultCode : ExtCode
  deriving DecidableEq, Repr

/-- Observable effects of a lifecycle operation, in program order. -/
inductive Event where
  /-- busy-wait until the named sentinel file exists in the work dir -/
  | waitSentinel (name : String)
  /-- launch the adu-shell child (argument shown is the action /
      target option distinguishing the invocation) -/
  | launchChild (action : String)
  /-- `workflow_request_immediate_reboot` -/
  | requestReboot
  /-- create/truncate the named file in the work dir and write it -/
  | writeStamp (name : String)
  /-- `std::filesystem::remove` of the named file in the work dir -/
  | removeFile (name : String)
  /-- `ExtensionManager::Download` of the payload -/
  | download
  deriving DecidableEq, Repr

/-- `FSUpdateHandlerImpl::getUpdateType(std::string&)`: map the
`handler_properties.updateType` string to `update_type_t`. -/
def getUpdateTypeOfName (updateTypeName : String) : UpdateType :=
  if updateTypeName = "firmware" then .firmware
  else if updateTypeName = "application" then .application
  else if updateTypeName = "common-application" then .commonApplication
  else if updateTypeName = "common-firmware" then .commonFirmware
  else if updateTypeName = "common-both" then .commonBoth
  else .unknown

/-- `IsNullOrEmpty` applied to the peeked handler-property string
(`none` models a null `const char*`). -/
def isNullOrEmpty : Option String → Bool
  | none => true
  | some s => s.isEmpty

/-- The success test of `FSUpdateHandlerImpl::Install`: the child exit
code equals `UPDATE_SUCCESSFUL` of the firmware, application or combined
state enum. -/
def installExitSuccessful (c : ExitCode) : Bool :=
  c = .fwUpdateSuccessful || c = .appUpdateSuccessful || c = .bothUpdateSuccessful

/-- The kind-indexed failure extended code assigned by the
`else` branch of `FSUpdateHandlerImpl::Install` (the chain of
`getUpdateType()` comparisons on the cached `update_type` member). -/
def installFailureErc (cached : UpdateType) : Erc :=
  if cached = .firmware ∨ cached = .commonFirmware then
    .installFailureFirmwareUpdate
  else if cached = .application ∨ cached = .commonApplication then
    .installFailureApplicationUpdate
  else if cached = .commonBoth then
    .installFailureBadFileEntity
  else
    .installFailureBadFileEntity

/-- Environment of one `FSUpdateHandlerImpl::Install` call: outcomes of
the external interactions it may perform. -/
structure InstallEnv where
  /-- `opendir(workFolder)` succeeded -/
  opendirOk : Bool
  /-- `workflow_get_update_file(workflowHandle, 0, &fileEntity)` succeeded -/
  getFileOk : Bool
  /-- `workflow_peek_update_manifest_handler_properties_string(_, "updateType")`
      (`none` = null pointer) -/
  typeName : Option String
  /-- current value of the handler's cached `update_type` member field -/
  cached : UpdateType
  /-- exit code of the launched install child process -/
  exitCode : ExitCode
  deriving Repr

/-- `FSUpdateHandlerImpl::Install`: result plus effect trace.
The `done:` label epilogue removes the `installUpdate` sentinel when the
result is not `Install_Success` and always writes the `errorState`
stamp. -/
def install (env : InstallEnv) : List Event × ADUCResult :=
  let body : List Event × ADUCResult :=
    if ¬ env.opendirOk then
      ([], ⟨.failure, .erc .installFailureCannotOpenWorkfolder⟩)
    else if ¬ env.getFileOk then
      ([], ⟨.failure, .erc .installFailureBadFileEntity⟩)
    else if isNullOrEmpty env.typeName then
      ([], ⟨.failure, .erc .missingUpdateTypeProperty⟩)
    else
      -- wait for the installUpdate sentinel, then launch the child
      let events := [Event.waitSentinel "installUpdate", Event.launchChild "install"]
      if installExitSuccessful env.exitCode then
        (events, ⟨.installSuccess, .zero⟩)
      else
        (events, ⟨.failure, .erc (installFailureErc env.cached)⟩)
  let epilogue : List Event :=
    (if body.2.resultCode ≠ .installSuccess then [Event.removeFile "installUpdate"] else [])
      ++ [Event.writeStamp "errorState"]
  (body.1 ++ epilogue, body.2)

/-- `HandleExecuteAction(targetaction, output)`: launches the adu-shell
child with `--update-action execute --target-options <targetaction>` and
returns `{ ADUC_Result_Failure, <exit code> }` (the captured stdout is
handled separately by the caller). -/
def handleExecuteAction (c : ExitCode) : ADUCResult :=
  ⟨.failure, .exit c⟩

/-- Environment of one `FSUpdateHandlerImpl::Apply` call. -/
structure ApplyEnv where
  /-- exit code of the `--update_reboot_state` query child -/
  rebootState : ExitCode
  deriving Repr

/-- `FSUpdateHandlerImpl::Apply`: result plus effect trace.  The
`switch` is on the exit code of the `--update_reboot_state` query; the
`INCOMPLETE_*` cases wait for the `applyUpdate` sentinel and `break`
with the result still holding the `HandleExecuteAction` outcome. -/
def apply (env : ApplyEnv) : List Event × ADUCResult :=
  let query := [Event.launchChild "execute --update_reboot_state"]
  let result := handleExecuteAction env.rebootState
  match env.rebootState with
  | .updateRebootPending =>
      (query ++ [Event.waitSentinel "applyUpdate", Event.requestReboot],
       ⟨.applyRequiredImmediateReboot, .zero⟩)
  | .incompleteFwUpdate =>
      (query ++ [Event.waitSentinel "applyUpdate"], result)
  | .incompleteAppUpdate =>
      (query ++ [Event.waitSentinel "applyUpdate"], result)
  | .incompleteAppFwUpdate =>
      (query ++ [Event.waitSentinel "applyUpdate"], result)
  | .noUpdateRebootPending =>
      (query, ⟨.applySuccess, .zero⟩)
  | .commitUpdateNotNeeded =>
      (query, ⟨.applySuccess, .zero⟩)
  | _ =>
      (query, ⟨.failure, .erc .applyFailureUnknownError⟩)

/-- Environment of one `FSUpdateHandlerImpl::Cancel` call. -/
structure CancelEnv where
  /-- exit code of the initial `--update_reboot_state` query -/
  rebootState1 : ExitCode
  /-- exit code of the rollback (cancel-action) child -/
  rollbackExit : ExitCode
  /-- exit code of the `--update_reboot_state` re-read after rollback -/
  rebootState2 : ExitCode
  /-- exit code of the `--commit_update` child -/
  commitExit : ExitCode
  deriving Repr

/-- `FSUpdateHandlerImpl::Cancel`: result plus effect trace. -/
def cancel (env : CancelEnv) : List Event × ADUCResult :=
  let query := [Event.launchChild "execute --update_reboot_state"]
  if env.rebootState1 = .incompleteAppUpdate then
    let ev := query ++ [Event.launchChild "cancel"]
    if env.rollbackExit ≠ .updateRollbackSuccessful then
      (ev, ⟨.failure, .erc .cancelRollbackFirmwareError⟩)
    else
      let ev := ev ++ [Event.launchChild "execute --update_reboot_state"]
      if env.rebootState2 = .rollbackFwRebootPending then
        (ev ++ [Event.requestReboot], ⟨.cancelRequiredImmediateReboot, .zero⟩)
      else if env.rebootState2 = .noUpdateRebootPending then
        (ev, ⟨.cancelSuccess, .zero⟩)
      else
        (ev, ⟨.failure, .erc .cancelNotAllowedStateError⟩)
  else if env.rebootState1 = .rollbackFwRebootPending then
    let ev := query ++ [Event.launchChild "execute --commit_update"]
    if env.commitExit = .noUpdateRebootPending then
      (ev, ⟨.cancelSuccess, .zero⟩)
    else
      (ev, ⟨.cancelSuccess, .erc .cancelNotAllowedStateError⟩)
  else if env.rebootState1 = .noUpdateRebootPending then
    (query, ⟨.failureCancelled, .zero⟩)
  else
    (query, ⟨.failure, .erc .cancelNotAllowedStateError⟩)

/-! ## std::string primitives used by `GetNextSubstringFromString`

We model `std::string` values as `List Char` and the index type
`size_t` via `Option Nat` (`none` = `std::string::npos`). -/

/-- Is `pat` a prefix of `s`?  (Boolean, by direct recursion.) -/
def prefixOfList : List Char → List Char → Bool
  | [], _ => true
  | _ :: _, [] => false
  | p :: ps, c :: cs => p = c && prefixOfList ps cs

/-- `std::string::find(substr)`: index of the first occurrence of `pat`
in `s`, `none` for `npos`. -/
def strFind (s pat : List Char) : Option Nat :=
  if prefixOfList pat s then some 0
  else
    match s with
    | [] => none
    | _ :: s' => (strFind s' pat).map (· + 1)

/-- Search helper: least absolute index `≥ i` (list `l` being the
suffix of the string starting at `i`) whose character satisfies `p`. -/
def findIdxShift (p : Char → Bool) : List Char → Nat → Option Nat
  | [], _ => none
  | c :: cs, i => if p c then some i else findIdxShift p cs (i + 1)

/-- `std::string::find_first_not_of(' ', start)` /
`std::string::find(' ', start)` family: least index `≥ start` whose
character satisfies `p` (`none` = `npos`, also when `start ≥ size`). -/
def strFindFrom (p : Char → Bool) (s : List Char) (start : Nat) : Option Nat :=
  findIdxShift p (s.drop start) start

/-- Result of `GetNextSubstringFromString`: the function returns `false`
leaving the string unchanged when the option name does not occur
(`notFound`); when the option name is followed by spaces only,
`fullstr.substr(next_pos, …)` with `next_pos = npos` throws
`std::out_of_range` (`oob`). -/
inductive Extracted where
  | found (tok : List Char)
  | notFound
  | oob
  deriving DecidableEq, Repr

/-- `GetNextSubstringFromString(fullstr, substr)`: find `substr`, skip
the spaces after it, take up to the next space (or end of string), and
erase every `'\n'` and `'\t'` (the characters of `special_chars`). -/
def getNextSubstringFromString (fullstr substr : List Char) : Extracted :=
  match strFind fullstr substr with
  | none => .notFound
  | some pos =>
    match strFindFrom (fun c => !(c = ' ')) fullstr (pos + substr.length) with
    | none => .oob
    | some nextPos =>
      let endPos := (strFindFrom (fun c => c = ' ') fullstr nextPos).getD fullstr.length
      .found (((fullstr.drop nextPos).take (endPos - nextPos)).filter
        (fun c => !(c = '\n' || c = '\t')))

/-- The caller-side use of `GetNextSubstringFromString` in
`IsInstalled`: on `true` the string now holds the token, on `false` it
is left unchanged (the full captured output); the `oob` case is an
uncaught exception, modelled as `none`. -/
def applyExtraction (s opt : List Char) : Option (List Char) :=
  match getNextSubstringFromString s opt with
  | .found tok => some tok
  | .notFound => some s
  | .oob => none

/-! ## IsInstalled -/

/-- Environment of one `FSUpdateHandlerImpl::IsInstalled` call. -/
structure IsInstalledEnv where
  /-- `handler_properties.updateType` (`none` = null pointer) -/
  typeName : Option String
  /-- `installedCriteria` (non-empty, per the function's contract) -/
  criteria : List Char
  /-- exit code of the first version-query child -/
  verExit : Int
  /-- captured stdout of the first version-query child -/
  verOut : List Char
  /-- exit code of the `--update_reboot_state` query in the
      version-equal branch -/
  rebootState1 : ExitCode
  /-- exit code of the common-both `--application_version` query -/
  appVerExit : Int
  /-- captured stdout of the common-both `--application_version` query -/
  appVerOut : List Char
  /-- exit code of the `--update_reboot_state` query in the common-both
      branch -/
  rebootState2 : ExitCode
  /-- exit code of the final `--update_reboot_state` query -/
  rebootState3 : ExitCode
  /-- exit code of the `--commit_update` child issued for a
      `FAILED_*_UPDATE` state -/
  commitExit : ExitCode
  deriving Repr

/-- The version-query target option chosen by `IsInstalled`. -/
def targetOptionOf (upType : UpdateType) : List Char :=
  if upType = .application ∨ upType = .commonApplication then
    "--application_version".toList
  else
    "--firmware_version".toList

/-- The tail of `IsInstalled` (the final `--update_reboot_state` check):
commit a previously failed update, accept a failed update reboot, or
conclude `NotInstalled` (recording the update kind via
`setUpdateType`).  Third component: the argument of the `setUpdateType`
call when one is made. -/
def isInstalledFinal (env : IsInstalledEnv) (upType : UpdateType) (ev : List Event) :
    List Event × ADUCResult × Option UpdateType :=
  let ev := ev ++ [Event.launchChild "execute --update_reboot_state"]
  if env.rebootState3 = .failedAppUpdate then
    let ev := ev ++ [Event.launchChild "execute --commit_update"]
    if env.commitExit = .updateCommitSuccessful then
      (ev, ⟨.isInstalledInstalled, .zero⟩, none)
    else
      (ev, ⟨.failure, .erc .isInstalledFailureCommitPreviousFailedUpdate⟩, none)
  else if env.rebootState3 = .failedFwUpdate then
    let ev := ev ++ [Event.launchChild "execute --commit_update"]
    if env.commitExit = .updateCommitSuccessful then
      (ev, ⟨.isInstalledInstalled, .zero⟩, none)
    else
      (ev, ⟨.failure, .erc .isInstalledFailureCommitPreviousFailedUpdate⟩, none)
  else if env.rebootState3 = .fwUpdateRebootFailed then
    (ev, ⟨.isInstalledInstalled, .zero⟩, none)
  else
    (ev, ⟨.isInstalledNotInstalled, .zero⟩, some upType)

/-- The continuation of `IsInstalled` after the version-equal branch
falls through (the `up_type == UPDATE_COMMON_BOTH` block, then the
final reboot-state check).  Every path through this continuation
assigns `result` afresh, so the incoming value of `result` is dead. -/
def isInstalledCont (env : IsInstalledEnv) (upType : UpdateType) (ev : List Event) :
    Option (List Event × ADUCResult × Option UpdateType) :=
  if upType = .commonBoth then
    let ev := ev ++ [Event.launchChild "execute --application_version"]
    if env.appVerExit ≠ 0 then
      some (ev, ⟨.failure, .exitInt env.appVerExit⟩, none)
    else if env.appVerOut.isEmpty then
      some (ev, ⟨.failure, .zero⟩, none)
    else
      match applyExtraction env.appVerOut "--application_version".toList with
      | none => none
      | some appVer =>
        if appVer = env.criteria then
          let ev := ev ++ [Event.launchChild "execute --update_reboot_state"]
          if env.rebootState2 = .incompleteAppUpdate then
            some (ev, ⟨.isInstalledMissingCommit, .zero⟩, none)
          else if env.rebootState2 = .incompleteAppFwUpdate then
            some (ev, ⟨.isInstalledMissingCommit, .zero⟩, none)
          else if env.rebootState2 = .noUpdateRebootPending then
            some (ev, ⟨.isInstalledInstalled, .zero⟩, none)
          else
            some (ev, ⟨.failure, .erc .isInstalledFailureUnknownState⟩, none)
        else
          some (isInstalledFinal env upType ev)
  else
    some (isInstalledFinal env upType ev)

/-- `FSUpdateHandlerImpl::IsInstalled`: result, effect trace, and the
argument of the `setUpdateType` call when one happens.  `none` models
the uncaught `std::out_of_range` of the token extraction. -/
def isInstalled (env : IsInstalledEnv) :
    Option (List Event × ADUCResult × Option UpdateType) :=
  if isNullOrEmpty env.typeName then
    some ([], ⟨.failure, .erc .missingUpdateTypeProperty⟩, none)
  else
    let upType := getUpdateTypeOfName (env.typeName.getD "")
    if upType = .unknown then
      some ([], ⟨.failure, .internalError⟩, none)
    else
      let ev := [Event.launchChild "execute version query"]
      if env.verExit ≠ 0 then
        some (ev, ⟨.failure, .exitInt env.verExit⟩, none)
      else if env.verOut.isEmpty then
        some (ev, ⟨.failure, .zero⟩, none)
      else
        match applyExtraction env.verOut (targetOptionOf upType) with
        | none => none
        | some version =>
          if version = env.criteria then
            let ev := ev ++ [Event.launchChild "execute --update_reboot_state"]
            if env.rebootState1 = .incompleteAppFwUpdate then
              -- `result = MissingCommit` but no `goto done`: control
              -- falls through to the rest of the function
              isInstalledCont env upType ev
            else if env.rebootState1 = .noUpdateRebootPending then
              if upType ≠ .commonBoth then
                some (ev, ⟨.isInstalledInstalled, .zero⟩, none)
              else
                isInstalledCont env upType ev
            else if env.rebootState1 = .incompleteAppUpdate then
              some (ev, ⟨.isInstalledMissingCommit, .zero⟩, none)
            else if env.rebootState1 = .incompleteFwUpdate then
              some (ev, ⟨.isInstalledMissingCommit, .zero⟩, none)
            else
              some (ev, ⟨.failure, .erc .isInstalledFailureUnknownState⟩, none)
          else
            isInstalledCont env upType ev

/-! ## Download -/

/-- Environment of one `FSUpdateHandlerImpl::Download` call. -/
structure DownloadEnv where
  /-- `workflow_get_update_files_count` -/
  fileCount : Nat
  /-- `workflow_get_update_file(workflowHandle, 0, &fileEntity)` succeeded -/
  getFileOk : Bool
  /-- the `update_version` stamp stream opened -/
  versionStampOk : Bool
  /-- the `update_type` stamp stream opened -/
  typeStampOk : Bool
  /-- the `update_size` stamp stream opened -/
  sizeStampOk : Bool
  /-- the `update_location` stamp stream opened -/
  locationStampOk : Bool
  /-- result of `ExtensionManager::Download` -/
  downloadResult : ADUCResult
  deriving Repr

/-- `FSUpdateHandlerImpl::Download`: result plus effect trace.  Stamps
`update_version`, `update_type`, `update_size` are written, then the
`downloadUpdate` sentinel is awaited, then `update_location` is
written, then the payload download runs and its result is returned. -/
def download (env : DownloadEnv) : List Event × ADUCResult :=
  if env.fileCount ≠ 1 then
    ([], ⟨.failure, .erc .downloadFailureWrongFilecount⟩)
  else if ¬ env.getFileOk then
    ([], ⟨.failure, .erc .downloadBadFileEntity⟩)
  else if ¬ env.versionStampOk then
    ([], ⟨.failure, .erc .downloadFailureCreateFailedUpdateVersion⟩)
  else
    let ev := [Event.writeStamp "update_version"]
    if ¬ env.typeStampOk then
      (ev, ⟨.failure, .erc .downloadFailureCreateFailedUpdateType⟩)
    else
      let ev := ev ++ [Event.writeStamp "update_type"]
      if ¬ env.sizeStampOk then
        (ev, ⟨.failure, .erc .downloadFailureCreateFailedUpdateSize⟩)
      else
        let ev := ev ++ [Event.writeStamp "update_size", Event.waitSentinel "downloadUpdate"]
        if ¬ env.locationStampOk then
          (ev, ⟨.failure, .erc .downloadFailureCreateFailedUpdateLocation⟩)
        else
          (ev ++ [Event.writeStamp "update_location", Event.download],
           env.downloadResult)

/-! ## The legacy `fus/application:1` content handler -/

/-- Environment of one `FSUpdateApplicationHandlerImpl::Install` call
(`fsupdate_application_handler.cpp`). -/
structure LegacyInstallEnv where
  /-- `opendir(workFolder)` succeeded -/
  opendirOk : Bool
  /-- `workflow_get_update_file` succeeded -/
  getFileOk : Bool
  /-- exit code of the install child -/
  exitCode : ExitCode
  /-- exit code of the `CommitUpdateState()` (apply-action) child -/
  commitExit : ExitCode
  deriving Repr

/-- The value assigned to `result` inside the non-successful branch of
the legacy Install (`CommitUpdateState` outcome mapped to the
application-update or commit-update error code). -/
def legacyInstallFailureBranchResult (commitExit : ExitCode) : ADUCResult :=
  if commitExit = .commitSuccessful then
    ⟨.failure, .erc .installFailureApplicationUpdate⟩
  else
    ⟨.failure, .erc .installFailureCommitUpdate⟩

/-- The value of `result` in the legacy Install just before the
unconditional `result = { ADUC_Result_Install_Success }` statement
(reached whenever the child process was launched). -/
def legacyInstallPreOverwrite (env : LegacyInstallEnv) : ADUCResult :=
  if env.exitCode ≠ .appUpdateSuccessful then
    legacyInstallFailureBranchResult env.commitExit
  else
    ⟨.failure, .zero⟩

/-- `FSUpdateApplicationHandlerImpl::Install`: result plus effect
trace.  After the exit-code branch, `result` is unconditionally
overwritten with `{ ADUC_Result_Install_Success }`. -/
def legacyInstall (env : LegacyInstallEnv) : List Event × ADUCResult :=
  if ¬ env.opendirOk then
    ([], ⟨.failure, .erc .installFailureCannotOpenWorkfolder⟩)
  else if ¬ env.getFileOk then
    ([], ⟨.failure, .erc .installFailureBadFileEntity⟩)
  else
    let ev := [Event.waitSentinel "installApplication", Event.launchChild "install"]
    let ev :=
      if env.exitCode ≠ .appUpdateSuccessful then
        ev ++ [Event.launchChild "apply"]
      else
        ev ++ [Event.writeStamp "applicationInstalled"]
    -- `result` here is `legacyInstallPreOverwrite env`, then overwritten:
    (ev, ⟨.installSuccess, .zero⟩)

/-! ## Specification-side definitions (for refinement claims)

These definitions follow the wording of the specification, to be
compared with the embeddings above. -/

/-- The token extraction as §4.3 of the specification words it:
"extracts the first token following the option name from captured
stdout (stripping NUL, CR, LF, TAB, and surrounding spaces)". -/
def specGetVersionToken (fullstr substr : List Char) : Option (List Char) :=
  match strFind fullstr substr with
  | none => none
  | some pos =>
    let region := fullstr.drop (pos + substr.length)
    some (((region.dropWhile (fun c => c = ' ')).takeWhile (fun c => !(c = ' '))).filter
      (fun c => !(c = '\x00' || c = '\r' || c = '\n' || c = '\t')))

/-- The token extraction amended to what the code does: the first token
following the option name (leading spaces skipped, token delimited by
the next space or the end of the output), with only LF and TAB erased;
`none` when the option name is absent or is followed by spaces only. -/
def specGetVersionTokenAmended (fullstr substr : List Char) : Option (List Char) :=
  match strFind fullstr substr with
  | none => none
  | some pos =>
    let region := fullstr.drop (pos + substr.length)
    let tokenRegion := region.dropWhile (fun c => c = ' ')
    if tokenRegion.isEmpty then none
    else
      some ((tokenRegion.takeWhile (fun c => !(c = ' '))).filter
        (fun c => !(c = '\n' || c = '\t')))

/-! ## Trace predicates -/

/-- Does some child-process launch occur strictly before the first wait
on sentinel `s` (or without any wait on `s` at all)? -/
def childBeforeSentinel (tr : List Event) (s : String) : Bool :=
  match tr with
  | [] => false
  | .waitSentinel t :: rest => if t = s then false else childBeforeSentinel rest s
  | .launchChild _ :: _ => true
  | _ :: rest => childBeforeSentinel rest s

/-- The trace contains no stamp-file write. -/
def stampFreeTrace (tr : List Event) : Bool :=
  tr.all (fun e => match e with | .writeStamp _ => false | _ => true)

/-- The trace contains no child-process launch. -/
def launchFreeTrace (tr : List Event) : Bool :=
  tr.all (fun e => match e with | .launchChild _ => false | _ => true)

/-- The result component of `isInstalled`. -/
def isInstalledResult (env : IsInstalledEnv) : Option ADUCResult :=
  (isInstalled env).map (fun r => r.2.1)

/-! ## List lemmas for the token-extraction refinement proof -/

theorem findIdxShift_eq_none_iff (p : Char → Bool) (l : List Char) (i : Nat) :
    findIdxShift p l i = none ↔ l.dropWhile (fun c => !p c) = [] := by
  induction l generalizing i with
  | nil => simp [findIdxShift]
  | cons c cs ih =>
    by_cases hc : p c
    · simp [findIdxShift, hc, List.dropWhile_cons]
    · simp [findIdxShift, hc, List.dropWhile_cons, ih (i + 1)]

theorem findIdxShift_eq_some (p : Char → Bool) (l : List Char) (i j : Nat)
    (h : findIdxShift p l i = some j) :
    j = i + (l.takeWhile (fun c => !p c)).length := by
  induction l generalizing i with
  | nil => simp [findIdxShift] at h
  | cons c cs ih =>
    by_cases hc : p c
    · simp [findIdxShift, hc, List.takeWhile_cons] at h ⊢
      omega
    · simp [findIdxShift, hc, List.takeWhile_cons] at h ⊢
      have := ih (i + 1) h
      omega

theorem take_takeWhile_length (p : Char → Bool) (l : List Char) :
    l.take ((l.takeWhile p).length) = l.takeWhile p := by
  induction l with
  | nil => simp
  | cons c cs ih =>
    by_cases hc : p c
    · simp [List.takeWhile_cons, hc, ih]
    · simp [List.takeWhile_cons, hc]

theorem drop_takeWhile_length (p : Char → Bool) (l : List Char) :
    l.drop ((l.takeWhile p).length) = l.dropWhile p := by
  induction l with
  | nil => simp
  | cons c cs ih =>
    by_cases hc : p c
    · simp [List.takeWhile_cons, List.dropWhile_cons, hc, ih]
    · simp [List.takeWhile_cons, List.dropWhile_cons, hc]

theorem takeWhile_of_dropWhile_eq_nil (p : Char → Bool) (l : List Char)
    (h : l.dropWhile p = []) : l.takeWhile p = l := by
  have := List.takeWhile_append_dropWhile (p := p) (l := l)
  rw [h, List.append_nil] at this
  exact this

/-! ## Claim theorems -/

/-- C1: in `Install`, a child exit code equal to
`FirmwareState::UpdateSuccessful`, `ApplicationState::UpdateSuccessful`
or `CombinedState::UpdateSuccessful` yields `Install_Success`; every
other exit code yields `Failure` with the extended code determined only
by the handler's Update Kind: Firmware/CommonFirmware give the
firmware-update code, Application/CommonApplication the
application-update code, CommonBoth and Unknown the bad-file-entity
code. -/
theorem install_exit_code_mapping (env : InstallEnv)
    (hdir : env.opendirOk = true) (hfile : env.getFileOk = true)
    (htype : isNullOrEmpty env.typeName = false) :
    (installExitSuccessful env.exitCode = true →
      (install env).2 = ⟨.installSuccess, .zero⟩) ∧
    (installExitSuccessful env.exitCode = false →
      (install env).2.resultCode = .failure ∧
      (install env).2.extendedResultCode = .erc
        (if env.cached = .firmware ∨ env.cached = .commonFirmware then
          .installFailureFirmwareUpdate
         else if env.cached = .application ∨ env.cached = .commonApplication then
          .installFailureApplicationUpdate
         else .installFailureBadFileEntity)) := by
  obtain ⟨od, gf, tn, cached, ec⟩ := env
  simp only at hdir hfile htype
  subst hdir; subst hfile
  constructor
  · intro hs
    simp [install, htype, hs]
  · intro hs
    refine ⟨by simp [install, htype, hs], ?_⟩
    simp [install, htype, hs, installFailureErc]

/-- C1 (witness): a non-successful install exit with cached kind
CommonBoth yields `Failure` with the bad-file-entity code. -/
theorem install_exit_code_mapping_witness :
    (install ⟨true, true, some "firmware", UpdateType.commonBoth, .other 3⟩).2.resultCode
        = .failure ∧
    (install ⟨true, true, some "firmware", UpdateType.commonBoth, .other 3⟩).2.extendedResultCode
        = .erc .installFailureBadFileEntity := by
  exact (install_exit_code_mapping ⟨true, true, some "firmware", .commonBoth, .other 3⟩
    rfl rfl rfl).2 rfl

/-- C2: `Apply` maps the reported reboot state as follows:
`NoUpdateRebootPending` or `CommitState::UpdateNotNeeded` give
`Apply_Success`; `UpdateRebootPending` first waits for the
`applyUpdate` sentinel, then requests an immediate reboot and returns
`Apply_RequiredImmediateReboot`; the three `Incomplete*` states wait
for the `applyUpdate` sentinel and return the previously-assigned
outcome (the query result) without a reboot request; any other state
gives `Failure` with the apply-unknown-error code. -/
theorem apply_reboot_state_mapping (env : ApplyEnv) :
    (env.rebootState = .noUpdateRebootPending ∨ env.rebootState = .commitUpdateNotNeeded →
      apply env = ([.launchChild "execute --update_reboot_state"],
                   ⟨.applySuccess, .zero⟩)) ∧
    (env.rebootState = .updateRebootPending →
      apply env = ([.launchChild "execute --update_reboot_state",
                    .waitSentinel "applyUpdate", .requestReboot],
                   ⟨.applyRequiredImmediateReboot, .zero⟩)) ∧
    (env.rebootState = .incompleteFwUpdate ∨ env.rebootState = .incompleteAppUpdate ∨
        env.rebootState = .incompleteAppFwUpdate →
      apply env = ([.launchChild "execute --update_reboot_state", .waitSentinel "applyUpdate"],
                   ⟨.failure, .exit env.rebootState⟩)) ∧
    (env.rebootState ≠ .noUpdateRebootPending → env.rebootState ≠ .commitUpdateNotNeeded →
     env.rebootState ≠ .updateRebootPending → env.rebootState ≠ .incompleteFwUpdate →
     env.rebootState ≠ .incompleteAppUpdate → env.rebootState ≠ .incompleteAppFwUpdate →
      apply env = ([.launchChild "execute --update_reboot_state"],
                   ⟨.failure, .erc .applyFailureUnknownError⟩)) := by
  obtain ⟨rs⟩ := env
  cases rs <;> simp [apply, handleExecuteAction]

/-- C2 (witness): with `UpdateRebootPending` reported, `Apply` waits for
the sentinel, requests a reboot and returns
`Apply_RequiredImmediateReboot`. -/
theorem apply_reboot_state_mapping_witness :
    apply ⟨.updateRebootPending⟩
      = ([.launchChild "execute --update_reboot_state",
          .waitSentinel "applyUpdate", .requestReboot],
         ⟨.applyRequiredImmediateReboot, .zero⟩) :=
  (apply_reboot_state_mapping ⟨.updateRebootPending⟩).2.1 rfl

/-- C3 (code evaluation at the failing input): with kind `firmware`,
the updater version equal to `installed_criteria` and every
`--update_reboot_state` query reporting `INCOMPLETE_APP_FW_UPDATE`,
`IsInstalled` returns `IsInstalled_NotInstalled`, not the
`IsInstalled_MissingCommit` the claim (and the parallel `Incomplete*`
branches of the code itself) prescribe: the `MissingCommit` assignment
in that branch lacks the `goto done` of its sibling branches, so
control falls through to the version-differs re-check, which overwrites
the result. -/
theorem isInstalled_incompleteAppFw_fallthrough :
    isInstalled ⟨some "firmware", "1.2.3".toList, 0, "--firmware_version 1.2.3".toList,
        .incompleteAppFwUpdate, 0, [], .other 0, .incompleteAppFwUpdate, .other 0⟩
      = some ([.launchChild "execute version query",
               .launchChild "execute --update_reboot_state",
               .launchChild "execute --update_reboot_state"],
              ⟨.isInstalledNotInstalled, .zero⟩, some .firmware) := by decide

/-- C5: the `Cancel` decision table: `IncompleteAppUpdate` triggers a
rollback, whose successful exit leads to a reboot-state re-read mapped
to reboot-plus-`Cancel_RequiredImmediateReboot`, `Cancel_Success`, or
the not-allowed-state failure, and whose non-successful exit gives the
rollback-firmware failure; initial `RollbackFwRebootPending` issues a
commit and returns `Cancel_Success`, with the not-allowed-state code
appended when the commit's exit is not `NoUpdateRebootPending`; initial
`NoUpdateRebootPending` gives `Failure_Cancelled`; anything else the
not-allowed-state failure. -/
theorem cancel_state_mapping (env : CancelEnv) :
    (env.rebootState1 = .incompleteAppUpdate →
      (env.rollbackExit ≠ .updateRollbackSuccessful →
        (cancel env).2 = ⟨.failure, .erc .cancelRollbackFirmwareError⟩) ∧
      (env.rollbackExit = .updateRollbackSuccessful →
        (env.rebootState2 = .rollbackFwRebootPending →
          cancel env = ([.launchChild "execute --update_reboot_state",
                         .launchChild "cancel",
                         .launchChild "execute --update_reboot_state",
                         .requestReboot],
                        ⟨.cancelRequiredImmediateReboot, .zero⟩)) ∧
        (env.rebootState2 = .noUpdateRebootPending →
          (cancel env).2 = ⟨.cancelSuccess, .zero⟩) ∧
        (env.rebootState2 ≠ .rollbackFwRebootPending →
         env.rebootState2 ≠ .noUpdateRebootPending →
          (cancel env).2 = ⟨.failure, .erc .cancelNotAllowedStateError⟩))) ∧
    (env.rebootState1 = .rollbackFwRebootPending →
      (env.commitExit = .noUpdateRebootPending →
        (cancel env).2 = ⟨.cancelSuccess, .zero⟩) ∧
      (env.commitExit ≠ .noUpdateRebootPending →
        (cancel env).2 = ⟨.cancelSuccess, .erc .cancelNotAllowedStateError⟩)) ∧
    (env.rebootState1 = .noUpdateRebootPending →
      (cancel env).2 = ⟨.failureCancelled, .zero⟩) ∧
    (env.rebootState1 ≠ .incompleteAppUpdate →
     env.rebootState1 ≠ .rollbackFwRebootPending →
     env.rebootState1 ≠ .noUpdateRebootPending →
      (cancel env).2 = ⟨.failure, .erc .cancelNotAllowedStateError⟩) := by
  obtain ⟨r1, rb, r2, ce⟩ := env
  refine ⟨?_, ?_, ?_, ?_⟩ <;> intros <;> simp_all [cancel]

/-- C5 (witness): the S2 scenario — `IncompleteAppUpdate`, rollback
successful, re-read state `RollbackFwRebootPending` — requests a reboot
and returns `Cancel_RequiredImmediateReboot`. -/
theorem cancel_state_mapping_witness :
    cancel ⟨.incompleteAppUpdate, .updateRollbackSuccessful, .rollbackFwRebootPending, .other 0⟩
      = ([.launchChild "execute --update_reboot_state",
          .launchChild "cancel",
          .launchChild "execute --update_reboot_state",
          .requestReboot],
         ⟨.cancelRequiredImmediateReboot, .zero⟩) :=
  (((cancel_state_mapping ⟨.incompleteAppUpdate, .updateRollbackSuccessful,
      .rollbackFwRebootPending, .other 0⟩).1 rfl).2 rfl).1 rfl

/-- C7 (counterexample): `Install` with a missing
`handler_properties.updateType` does return `Failure` with the
missing-update-type code and launches no child, but its `done:`
epilogue writes the `errorState` stamp file (and removes the
`installUpdate` sentinel) before returning, so the operation does not
return "before any stamp file is written". -/
theorem install_missing_type_writes_error_state :
    (install ⟨true, true, none, .firmware, .other 0⟩).2
        = ⟨.failure, .erc .missingUpdateTypeProperty⟩ ∧
    stampFreeTrace (install ⟨true, true, none, .firmware, .other 0⟩).1 = false := by decide

/-- C7 (amended): `Download` with a file count other than one fails
with the wrong-filecount code having written nothing and launched
nothing; `Install` and `IsInstalled` with a missing or empty
`updateType` fail with the missing-update-type code before any child
process is launched and before any of the `update_*` stamps is
written — `Install` still removes the `installUpdate` sentinel and
writes the `errorState` stamp on this path. -/
theorem fatal_input_errors_before_child :
    (∀ env : DownloadEnv, env.fileCount ≠ 1 →
      download env = ([], ⟨.failure, .erc .downloadFailureWrongFilecount⟩)) ∧
    (∀ env : InstallEnv, env.opendirOk = true → env.getFileOk = true →
      isNullOrEmpty env.typeName = true →
      install env = ([.removeFile "installUpdate", .writeStamp "errorState"],
                     ⟨.failure, .erc .missingUpdateTypeProperty⟩)) ∧
    (∀ env : IsInstalledEnv, isNullOrEmpty env.typeName = true →
      isInstalled env = some ([], ⟨.failure, .erc .missingUpdateTypeProperty⟩, none)) := by
  refine ⟨?_, ?_, ?_⟩
  · intro env h
    simp [download, h]
  · intro env h1 h2 h3
    obtain ⟨od, gf, tn, cached, ec⟩ := env
    simp only at h1 h2 h3
    subst h1; subst h2
    simp [install, h3]
  · intro env h
    simp [isInstalled, h]

/-- C7 (witness): instances of the three fatal-input-error behaviours
at concrete inputs. -/
theorem fatal_input_errors_before_child_witness :
    download ⟨2, true, true, true, true, true, ⟨.failure, .zero⟩⟩
        = ([], ⟨.failure, .erc .downloadFailureWrongFilecount⟩) ∧
    install ⟨true, true, some "", .firmware, .other 0⟩
        = ([.removeFile "installUpdate", .writeStamp "errorState"],
           ⟨.failure, .erc .missingUpdateTypeProperty⟩) ∧
    isInstalled ⟨none, [], 0, [], .other 0, 0, [], .other 0, .other 0, .other 0⟩
        = some ([], ⟨.failure, .erc .missingUpdateTypeProperty⟩, none) :=
  ⟨fatal_input_errors_before_child.1 _ (by decide),
   fatal_input_errors_before_child.2.1 _ rfl rfl rfl,
   fatal_input_errors_before_child.2.2 _ rfl⟩

/-- C8 (counterexample): in the `Apply` phase the updater child process
running the `--update_reboot_state` query is launched before the
`applyUpdate` sentinel is waited for, so the child is launched before
the per-phase sentinel exists. -/
theorem apply_launches_child_before_sentinel :
    childBeforeSentinel (apply ⟨.updateRebootPending⟩).1 "applyUpdate" = true ∧
    (apply ⟨.updateRebootPending⟩).1
      = [.launchChild "execute --update_reboot_state", .waitSentinel "applyUpdate",
         .requestReboot] := by decide

/-- C8 (amended): in `Download` and `Install` no child process is
launched before the per-phase sentinel (`downloadUpdate`,
`installUpdate`) is waited for; in `Apply` the only child launched is
the initial `--update_reboot_state` query, which precedes the
`applyUpdate` sentinel wait — the sentinel gates only the subsequent
reboot request and commit hand-off. -/
theorem sentinel_gating_amended :
    (∀ env : DownloadEnv, childBeforeSentinel (download env).1 "downloadUpdate" = false) ∧
    (∀ env : InstallEnv, childBeforeSentinel (install env).1 "installUpdate" = false) ∧
    (∀ env : ApplyEnv, ∃ rest,
      (apply env).1 = Event.launchChild "execute --update_reboot_state" :: rest ∧
      launchFreeTrace rest = true) := by
  refine ⟨?_, ?_, ?_⟩
  · intro env
    obtain ⟨fc, gf, vs, ts, ss, ls, dr⟩ := env
    by_cases h1 : fc ≠ 1
    · simp [download, h1, childBeforeSentinel]
    · cases gf <;> cases vs <;> cases ts <;> cases ss <;> cases ls <;>
        simp [download, h1, childBeforeSentinel]
  · intro env
    obtain ⟨od, gf, tn, cached, ec⟩ := env
    cases od <;> cases gf <;> by_cases htn : isNullOrEmpty tn = true <;>
      by_cases hec : installExitSuccessful ec = true <;>
        simp [install, htn, hec, childBeforeSentinel]
  · intro env
    obtain ⟨rs⟩ := env
    cases rs <;> exact ⟨_, rfl, by decide⟩

/-- C9: when the install child exits unsuccessfully, the kind-specific
failure extended code is selected from the handler's cached
`update_type` member (which `Install` never writes; only
`setUpdateType` in `IsInstalled` does), not from the `updateType`
handler property parsed within the same `Install` call: the code is
`installFailureErc cached` for every parsed property value, and
changing only the cached field changes the code. -/
theorem install_failure_code_from_cached_kind
    (cached : UpdateType) (tn tn' : Option String) (ec : ExitCode)
    (hec : installExitSuccessful ec = false)
    (h : isNullOrEmpty tn = false) (h' : isNullOrEmpty tn' = false) :
    (install ⟨true, true, tn, cached, ec⟩).2.extendedResultCode
        = .erc (installFailureErc cached) ∧
    (install ⟨true, true, tn, cached, ec⟩).2.extendedResultCode
        = (install ⟨true, true, tn', cached, ec⟩).2.extendedResultCode ∧
    (install ⟨true, true, tn, .firmware, ec⟩).2.extendedResultCode
        = .erc .installFailureFirmwareUpdate ∧
    (install ⟨true, true, tn, .application, ec⟩).2.extendedResultCode
        = .erc .installFailureApplicationUpdate := by
  refine ⟨?_, ?_, ?_, ?_⟩ <;> simp [install, h, h', hec, installFailureErc]

/-- C9 (witness): with the handler property naming `application` but
the cached member holding `firmware`, the failure code is the
firmware-update one. -/
theorem install_failure_code_from_cached_kind_witness :
    (install ⟨true, true, some "application", UpdateType.firmware, .other 9⟩).2.extendedResultCode
        = .erc .installFailureFirmwareUpdate :=
  (install_failure_code_from_cached_kind .firmware (some "application") (some "firmware")
    (.other 9) rfl rfl rfl).2.2.1

/-- C4: when the version read from the updater differs from
`installed_criteria` (for CommonBoth: both versions differ), the final
`--update_reboot_state` read decides the outcome: `FailedAppUpdate` or
`FailedFwUpdate` issue a `--commit_update`, returning
`IsInstalled_Installed` on `CommitState::UpdateCommitSuccessful` and
otherwise `Failure` with the commit-previous-failed code;
`FwUpdateRebootFailed` returns `IsInstalled_Installed`; every other
state returns `IsInstalled_NotInstalled`. -/
theorem isInstalled_version_differs_mapping
    (env : IsInstalledEnv) (k : UpdateType)
    (htn : isNullOrEmpty env.typeName = false)
    (hk : getUpdateTypeOfName (env.typeName.getD "") = k)
    (hku : k ≠ .unknown)
    (hv0 : env.verExit = 0)
    (hvne : env.verOut.isEmpty = false)
    (hver : ∃ v, applyExtraction env.verOut (targetOptionOf k) = some v ∧ v ≠ env.criteria)
    (hcb : k = .commonBoth →
      env.appVerExit = 0 ∧ env.appVerOut.isEmpty = false ∧
      ∃ av, applyExtraction env.appVerOut "--application_version".toList = some av ∧
        av ≠ env.criteria) :
    ((env.rebootState3 = .failedAppUpdate ∨ env.rebootState3 = .failedFwUpdate) →
      (env.commitExit = .updateCommitSuccessful →
        isInstalledResult env = some ⟨.isInstalledInstalled, .zero⟩) ∧
      (env.commitExit ≠ .updateCommitSuccessful →
        isInstalledResult env
          = some ⟨.failure, .erc .isInstalledFailureCommitPreviousFailedUpdate⟩)) ∧
    (env.rebootState3 = .fwUpdateRebootFailed →
      isInstalledResult env = some ⟨.isInstalledInstalled, .zero⟩) ∧
    (env.rebootState3 ≠ .failedAppUpdate → env.rebootState3 ≠ .failedFwUpdate →
     env.rebootState3 ≠ .fwUpdateRebootFailed →
      isInstalledResult env = some ⟨.isInstalledNotInstalled, .zero⟩) := by
  obtain ⟨v, hvx, hvneq⟩ := hver
  have hred : ∃ ev, isInstalled env = some (isInstalledFinal env k ev) := by
    by_cases hkcb : k = .commonBoth
    · obtain ⟨ha0, hane, av, hax, haneq⟩ := hcb hkcb
      refine ⟨[Event.launchChild "execute version query",
               Event.launchChild "execute --application_version"], ?_⟩
      simp only [isInstalled, htn, hk, hku, hv0, hvne, Bool.false_eq_true, if_false]
      rw [hvx]
      simp only [hvneq, if_false, isInstalledCont, hkcb, if_true, ha0, hane,
        Bool.false_eq_true]
      rw [hax]
      simp [haneq]
    · refine ⟨[Event.launchChild "execute version query"], ?_⟩
      simp only [isInstalled, htn, hk, hku, hv0, hvne, Bool.false_eq_true, if_false]
      rw [hvx]
      simp [hvneq, isInstalledCont, hkcb]
  obtain ⟨ev, hev⟩ := hred
  have hres : ∀ r, (isInstalledFinal env k ev).2.1 = r →
      isInstalledResult env = some r := by
    intro r hr
    simp [isInstalledResult, hev, hr]
  refine ⟨?_, ?_, ?_⟩
  · rintro (h3 | h3)
    · constructor
      · intro hc
        exact hres _ (by simp [isInstalledFinal, h3, hc])
      · intro hc
        exact hres _ (by simp [isInstalledFinal, h3, hc])
    · constructor
      · intro hc
        exact hres _ (by simp [isInstalledFinal, h3, hc])
      · intro hc
        exact hres _ (by simp [isInstalledFinal, h3, hc])
  · intro h3
    exact hres _ (by simp [isInstalledFinal, h3])
  · intro h1 h2 h3
    exact hres _ (by simp [isInstalledFinal, h1, h2, h3])

/-- C4 (witness): version `9.9.9` read, criteria `1.2.3`, final reboot
state `FwUpdateRebootFailed`: `IsInstalled` returns
`IsInstalled_Installed`. -/
theorem isInstalled_version_differs_mapping_witness :
    isInstalledResult ⟨some "firmware", "1.2.3".toList, 0,
        "--firmware_version 9.9.9".toList, .other 0, 0, [], .other 0,
        .fwUpdateRebootFailed, .other 0⟩
      = some ⟨.isInstalledInstalled, .zero⟩ :=
  (isInstalled_version_differs_mapping
    ⟨some "firmware", "1.2.3".toList, 0, "--firmware_version 9.9.9".toList,
      .other 0, 0, [], .other 0, .fwUpdateRebootFailed, .other 0⟩
    .firmware rfl (by decide) (by decide) rfl rfl
    ⟨"9.9.9".toList, by decide, by decide⟩ (fun h => nomatch h)).2.1 rfl

/-- C10: the legacy `fus/application:1` content handler's `Install`
returns `Install_Success` for every child exit code once the child has
been launched: the `Failure` results assigned in the non-successful
branch (application-update or commit-update error codes, as recorded by
`legacyInstallPreOverwrite`) are unconditionally overwritten with
`Install_Success` before the function returns. -/
theorem legacy_install_always_success (env : LegacyInstallEnv)
    (h1 : env.opendirOk = true) (h2 : env.getFileOk = true) :
    (legacyInstall env).2 = ⟨.installSuccess, .zero⟩ ∧
    (env.exitCode ≠ .appUpdateSuccessful →
      (legacyInstallPreOverwrite env).resultCode = .failure ∧
      ((legacyInstallPreOverwrite env).extendedResultCode
          = .erc .installFailureApplicationUpdate ∨
       (legacyInstallPreOverwrite env).extendedResultCode
          = .erc .installFailureCommitUpdate)) := by
  obtain ⟨od, gf, ec, ce⟩ := env
  simp only at h1 h2
  subst h1; subst h2
  constructor
  · simp [legacyInstall]
  · intro h
    by_cases hce : ce = .commitSuccessful <;>
      simp [legacyInstallPreOverwrite, legacyInstallFailureBranchResult, h, hce]

/-- C10 (witness): a failing exit code still yields `Install_Success`,
though the pre-overwrite result was a `Failure`. -/
theorem legacy_install_always_success_witness :
    (legacyInstall ⟨true, true, .other 7, .other 0⟩).2 = ⟨.installSuccess, .zero⟩ ∧
    (legacyInstallPreOverwrite ⟨true, true, .other 7, .other 0⟩).resultCode = .failure :=
  ⟨(legacy_install_always_success ⟨true, true, .other 7, .other 0⟩ rfl rfl).1,
   ((legacy_install_always_success ⟨true, true, .other 7, .other 0⟩ rfl rfl).2 (by decide)).1⟩

/-- C6 (counterexample): the claim says the version token is extracted
"with NUL, CR, LF, TAB, and surrounding spaces stripped"; on the
captured output `"--firmware_version 1.2.3\r more"` the code extracts
the token `"1.2.3\r"`, keeping the carriage return, while the
spec-worded extraction yields `"1.2.3"`. -/
theorem getNextSubstring_keeps_carriage_return :
    getNextSubstringFromString "--firmware_version 1.2.3\r more".toList
        "--firmware_version".toList = .found "1.2.3\r".toList ∧
    specGetVersionToken "--firmware_version 1.2.3\r more".toList
        "--firmware_version".toList = some "1.2.3".toList ∧
    "1.2.3\r".toList ≠ "1.2.3".toList := by
  refine ⟨by decide, by decide, by decide⟩

/-- C6 (amended): the version string compared against
`installed_criteria` is the first token following the requested option
name in the captured stdout — leading spaces skipped, token delimited
by the next space or the end of the output — with only LF and TAB
erased from it (NUL and CR are kept); extraction fails when the option
name is absent or is followed by spaces only. -/
theorem getNextSubstring_eq_spec_amended (full pat tok : List Char) :
    getNextSubstringFromString full pat = .found tok ↔
      specGetVersionTokenAmended full pat = some tok := by
  unfold getNextSubstringFromString specGetVersionTokenAmended
  cases hfind : strFind full pat with
  | none => simp
  | some pos =>
    simp only
    cases hnp : strFindFrom (fun c => !(c = ' ')) full (pos + pat.length) with
    | none =>
      have h1 : (full.drop (pos + pat.length)).dropWhile (fun c => c = ' ') = [] := by
        have := (findIdxShift_eq_none_iff (fun c => !(c = ' '))
          (full.drop (pos + pat.length)) (pos + pat.length)).mp hnp
        simpa using this
      simp [h1]
    | some nextPos =>
      have hT : (full.drop (pos + pat.length)).dropWhile (fun c => c = ' ') ≠ [] := by
        intro hnil
        have hnone : findIdxShift (fun c => !(c = ' '))
            (full.drop (pos + pat.length)) (pos + pat.length) = none := by
          rw [findIdxShift_eq_none_iff]
          simpa using hnil
        have hsome : findIdxShift (fun c => !(c = ' '))
            (full.drop (pos + pat.length)) (pos + pat.length) = some nextPos := hnp
        rw [hnone] at hsome
        exact Option.noConfusion hsome
      have hempty : ((full.drop (pos + pat.length)).dropWhile (fun c => c = ' ')).isEmpty
          = false := by
        simpa [List.isEmpty_iff] using hT
      have hnpv : nextPos = (pos + pat.length)
          + ((full.drop (pos + pat.length)).takeWhile (fun c => c = ' ')).length := by
        have := findIdxShift_eq_some (fun c => !(c = ' '))
          (full.drop (pos + pat.length)) (pos + pat.length) nextPos hnp
        simpa using this
      have hdropT : full.drop nextPos
          = (full.drop (pos + pat.length)).dropWhile (fun c => c = ' ') := by
        rw [hnpv, ← List.drop_drop, drop_takeWhile_length]
      dsimp only
      cases hep : strFindFrom (fun c => c = ' ') full nextPos with
      | none =>
        have h2 : (full.drop nextPos).dropWhile (fun c => !(c = ' ')) = [] := by
          have := (findIdxShift_eq_none_iff (fun c => c = ' ')
            (full.drop nextPos) nextPos).mp hep
          simpa using this
        have h3 : (full.drop nextPos).take (full.length - nextPos)
            = ((full.drop (pos + pat.length)).dropWhile (fun c => c = ' ')).takeWhile
                (fun c => !(c = ' ')) := by
          rw [← List.length_drop, List.take_length, ← hdropT]
          exact (takeWhile_of_dropWhile_eq_nil _ _ h2).symm
        simp [hempty, h3]
      | some e =>
        have hev : e = nextPos + ((full.drop nextPos).takeWhile (fun c => !(c = ' '))).length := by
          have := findIdxShift_eq_some (fun c => c = ' ') (full.drop nextPos) nextPos e hep
          simpa using this
        have h3 : (full.drop nextPos).take (e - nextPos)
            = ((full.drop (pos + pat.length)).dropWhile (fun c => c = ' ')).takeWhile
                (fun c => !(c = ' ')) := by
          rw [hev, Nat.add_sub_cancel_left, ← hdropT]
          exact take_takeWhile_length _ _
        simp [hempty, h3]

end FSUpdate
